import Mathlib

/-!
Verification development for the pull-request quality-gate pipeline
(sonar-pr-sparkle). Each data type and function below is a shallow
embedding of the corresponding TypeScript source:

  src/lib/autoMerge.ts            -> AutoMerge namespace
  src/lib/autoMergeHistory.ts     -> History namespace
  src/hooks/useCodeReview.ts      -> Quality namespace
  src/hooks/useAIReview.ts        -> AIParse namespace
  src/hooks/useGitHub.ts          -> Upsert namespace
  src/pages/Dashboard.tsx         -> Pipeline namespace
  src/hooks/useMergeConflict.ts and the merge-conflict dialog
                                  -> Conflict namespace

JavaScript numbers are modelled as Int (integer counts and scores) and
Rat (fractional percentages); JS strings as String. Effects (network,
storage) are modelled by explicit state passing.
-/

namespace AutoMerge

/-- Mode union type from src/lib/autoMerge.ts. -/
inductive AutoMergeMode
| less
| greater
deriving DecidableEq, Repr

/-- AutoMergeConfig interface from src/lib/autoMerge.ts. -/
structure AutoMergeConfig where
  enabled : Bool
  mode : AutoMergeMode
  aiThreshold : Int
  sonarThreshold : Int
deriving DecidableEq, Repr

/-- shouldAutoMerge from src/lib/autoMerge.ts lines 10-19.  The source
reads the mode with a JS default (cfg.mode or the string less); in the
typed model the mode field is always present, so the default collapses. -/
def shouldAutoMerge (aiScore sonarIssues : Int) (cfg : AutoMergeConfig) : Bool :=
  if !cfg.enabled then false
  else
    match cfg.mode with
    | AutoMergeMode.less => decide (aiScore ≤ cfg.aiThreshold) && decide (sonarIssues ≤ cfg.sonarThreshold)
    | AutoMergeMode.greater => decide (aiScore ≥ cfg.aiThreshold) && decide (sonarIssues ≥ cfg.sonarThreshold)

/-- Reference decision function, written from the wording of the spec:
disabled always refuses; at-most mode requires both values at or below
their thresholds; at-least mode requires both values at or above their
thresholds. -/
def decideReference (aiScore sonarIssues : Int) (cfg : AutoMergeConfig) : Bool :=
  if cfg.enabled then
    match cfg.mode with
    | AutoMergeMode.less => decide (aiScore ≤ cfg.aiThreshold ∧ sonarIssues ≤ cfg.sonarThreshold)
    | AutoMergeMode.greater => decide (aiScore ≥ cfg.aiThreshold ∧ sonarIssues ≥ cfg.sonarThreshold)
  else false

end AutoMerge

namespace History

/-- Decision union type from src/lib/autoMergeHistory.ts. -/
inductive Decision
| will_merge
| will_not_merge
| merged
| merge_failed
| disabled
deriving DecidableEq, Repr

/-- AutoMergeHistoryEntry interface from src/lib/autoMergeHistory.ts. -/
structure AutoMergeHistoryEntry where
  timestamp : String
  aiScore : Int
  sonarIssues : Int
  mode : AutoMerge.AutoMergeMode
  aiThreshold : Int
  sonarThreshold : Int
  decision : Decision
  details : Option String
deriving DecidableEq, Repr

/-- The localStorage-backed map from PR number to entry list.  The source
keys the record by the decimal string of the PR number; Nat keys are an
equivalent model since that conversion is injective. -/
def HistoryMap := Nat → List AutoMergeHistoryEntry

/-- The empty store (no key present; reads fall back to the empty list). -/
def emptyHistory : HistoryMap := fun _ => []

/-- getHistory from src/lib/autoMergeHistory.ts lines 32-35. -/
def getHistory (m : HistoryMap) (prNumber : Nat) : List AutoMergeHistoryEntry :=
  m prNumber

/-- saveHistory from src/lib/autoMergeHistory.ts lines 37-44: unshift the
entry (newest first) and keep the first 20 entries. -/
def saveHistory (m : HistoryMap) (prNumber : Nat) (entry : AutoMergeHistoryEntry) : HistoryMap :=
  fun k => if k = prNumber then List.take 20 (entry :: m k) else m k

/-- A sequence of saveHistory calls for one PR, oldest first. -/
def saveAll (m : HistoryMap) (prNumber : Nat) (es : List AutoMergeHistoryEntry) : HistoryMap :=
  es.foldl (fun acc e => saveHistory acc prNumber e) m

/-- A concrete history entry whose AI score records its insertion index. -/
def sampleEntry (i : Nat) : AutoMergeHistoryEntry :=
  { timestamp := "2026-01-16T09:47:48Z"
    aiScore := (i : Int)
    sonarIssues := 2
    mode := AutoMerge.AutoMergeMode.less
    aiThreshold := 70
    sonarThreshold := 5
    decision := Decision.will_merge
    details := none }

/-- Twenty-one distinct concrete entries, oldest first. -/
def sampleEntries : List AutoMergeHistoryEntry :=
  (List.range 21).map sampleEntry

end History

namespace Quality

/-- PR size statistics consumed by the analyzer signature (additions,
deletions, changed-file count and PR number from the PullRequest value
passed to mockSonarResults). -/
structure PRSizeInput where
  additions : Int
  deletions : Int
  changedFiles : Int
  number : Int
deriving DecidableEq, Repr

/-- ThresholdConfig interface from src/types (integer counts, fractional
coverage and duplication bounds). -/
structure ThresholdConfig where
  bugs : Int
  vulnerabilities : Int
  codeSmells : Int
  securityHotspots : Int
  coverageMin : Rat
  duplicatedLinesMax : Rat
  blockerIssues : Int
  criticalIssues : Int
deriving DecidableEq, Repr

/-- DEFAULT_THRESHOLDS from src/types. -/
def DEFAULT_THRESHOLDS : ThresholdConfig :=
  { bugs := 0
    vulnerabilities := 0
    codeSmells := 10
    securityHotspots := 0
    coverageMin := 80
    duplicatedLinesMax := 3
    blockerIssues := 0
    criticalIssues := 0 }

/-- The six header metric values of the generated quality report
(the value fields of metrics.bugs .. metrics.securityHotspots in
mockSonarResults). -/
structure SonarHeaderMetrics where
  bugs : Int
  vulnerabilities : Int
  codeSmells : Int
  coverage : Rat
  duplicatedLines : Rat
  securityHotspots : Int
deriving DecidableEq, Repr

/-- Header metric generation from src/hooks/useCodeReview.ts lines 45-50.
Each JS Math.random() call is modelled by reading the next value of the
draw sequence (draw 0 for bugs, 1 for vulnerabilities, 2 for code smells,
3 for coverage, 4 for duplicated lines, 5 for security hotspots), so the
function is a pure function of the PR input and the draw sequence.  The
source lines use only Math.random(), so the PR input does not occur in
the body. -/
def mockSonarHeaders (_pr : PRSizeInput) (rand : Nat → Rat) : SonarHeaderMetrics :=
  { bugs := ⌊rand 0 * 5⌋
    vulnerabilities := ⌊rand 1 * 3⌋
    codeSmells := ⌊rand 2 * 20⌋
    coverage := 70 + rand 3 * 25
    duplicatedLines := rand 4 * 5
    securityHotspots := ⌊rand 5 * 4⌋ }

/-- Tags for the violation strings pushed in useCodeReview.ts lines 57-61.
The source pushes formatted message strings; only the identity and number
of pushed entries matter to the gate status, so the messages are modelled
by tags. -/
inductive ViolationKind
| bugs
| vulnerabilities
| codeSmells
| coverage
| duplicatedLines
deriving DecidableEq, Repr

/-- The violations list built in useCodeReview.ts lines 56-61, in source
order.  Security hotspots and the severity buckets are never pushed. -/
def mockViolations (t : ThresholdConfig) (h : SonarHeaderMetrics) : List ViolationKind :=
  (if h.bugs > t.bugs then [ViolationKind.bugs] else [])
    ++ (if h.vulnerabilities > t.vulnerabilities then [ViolationKind.vulnerabilities] else [])
    ++ (if h.codeSmells > t.codeSmells then [ViolationKind.codeSmells] else [])
    ++ (if h.coverage < t.coverageMin then [ViolationKind.coverage] else [])
    ++ (if h.duplicatedLines > t.duplicatedLinesMax then [ViolationKind.duplicatedLines] else [])

/-- Quality gate aggregate status values. -/
inductive GateStatus
| OK
| ERROR
deriving DecidableEq, Repr

/-- qualityGate.status from useCodeReview.ts line 76: ERROR when the
violations list is non-empty, OK otherwise. -/
def qualityGateStatus (t : ThresholdConfig) (h : SonarHeaderMetrics) : GateStatus :=
  if (mockViolations t h).length > 0 then GateStatus.ERROR else GateStatus.OK

/-- The exceeded flag of metrics.securityHotspots from useCodeReview.ts
line 89 (computed and displayed, but never pushed into violations). -/
def hotspotExceeded (t : ThresholdConfig) (h : SonarHeaderMetrics) : Bool :=
  h.securityHotspots > t.securityHotspots

/-- A concrete PR input used to evaluate the analyzer. -/
def cexPR : PRSizeInput :=
  { additions := 10, deletions := 2, changedFiles := 1, number := 7 }

/-- Concrete pseudo-random draws under which only the security-hotspot
count exceeds its default threshold: coverage draw 4/5 (coverage 90),
hotspot draw 9/10 (hotspot count 3), all other draws 0. -/
def cexDraws : Nat → Rat := fun n =>
  if n = 3 then (4 : Rat) / 5 else if n = 5 then (9 : Rat) / 10 else 0

/-- The header metrics generated from those draws. -/
def cexHeaders : SonarHeaderMetrics :=
  mockSonarHeaders cexPR cexDraws

end Quality

namespace AIParse

/-- The fields of the AIConfig record that parseAIResponse reads (only the
model identifier; the provider is carried for fidelity of the record
shape, the remaining credential and toggle fields are not consumed by the
parser). -/
structure AIConfigModel where
  provider : String
  model : String
deriving DecidableEq, Repr

/-- One entry of the suggestions array of a successfully JSON-parsed AI
response, before normalization (every field may be absent). -/
structure ParsedSuggestion where
  type : Option String
  severity : Option String
  file : Option String
  line : Option Int
  message : Option String
  suggestion : Option String
deriving DecidableEq, Repr

/-- The categories object of a parsed AI response (each score may be
absent). -/
structure ParsedCategories where
  codeQuality : Option Int
  security : Option Int
  performance : Option Int
  maintainability : Option Int
  testability : Option Int
deriving DecidableEq, Repr

/-- A successfully JSON-parsed AI response, before normalization.  This is
the shape that the code reads off the parsed object; absent properties are
none. -/
structure ParsedReview where
  summary : Option String
  title : Option String
  guide : Option String
  suggestions : Option (List ParsedSuggestion)
  overallScore : Option Int
  categories : Option ParsedCategories
deriving DecidableEq, Repr

/-- A normalized suggestion of the AIReviewResult record. -/
structure AICodeSuggestion where
  id : String
  type : String
  severity : String
  file : String
  line : Option Int
  message : String
  suggestion : String
  status : String
deriving DecidableEq, Repr

/-- The normalized category scores of an AIReviewResult. -/
structure AIReviewCategories where
  codeQuality : Int
  security : Int
  performance : Int
  maintainability : Int
  testability : Int
deriving DecidableEq, Repr

/-- AIReviewResult from src/types, without the wall-clock timestamp field
(new Date().toISOString() is an effect outside the parsing logic). -/
structure AIReviewResult where
  summary : String
  title : Option String
  guide : Option String
  suggestions : List AICodeSuggestion
  overallScore : Int
  categories : AIReviewCategories
  model : String
deriving DecidableEq, Repr

/-- JS truthiness fallback (x or-else d) on a possibly absent number: an
absent value and the number 0 are both falsy and replaced by the default. -/
def jsOrInt (v : Option Int) (d : Int) : Int :=
  match v with
  | none => d
  | some x => if x = 0 then d else x

/-- JS truthiness fallback on a possibly absent string: an absent value
and the empty string are both falsy and replaced by the default. -/
def jsOrStr (v : Option String) (d : String) : String :=
  match v with
  | none => d
  | some s => if s = "" then d else s

/-- Normalization of one suggestion entry from parseAIResponse (index i is
the array position; the source writes String(i + 1) as the id). -/
def normalizeSuggestion (i : Nat) (s : ParsedSuggestion) : AICodeSuggestion :=
  { id := toString (i + 1)
    type := jsOrStr s.type "improvement"
    severity := jsOrStr s.severity "medium"
    file := jsOrStr s.file "unknown"
    line := s.line
    message := jsOrStr s.message ""
    suggestion := jsOrStr s.suggestion ""
    status := "pending" }

/-- parseAIResponse from src/hooks/useAIReview.ts lines 387-438.  The
composition of fenced-block extraction and JSON.parse is modelled by the
parse argument: parse returns some parsed review exactly when the source
reaches the return in the try block, and none exactly when JSON parsing
throws and control reaches the catch block.  In the success branch the
suggestions array defaults to the empty array only when absent (a present
empty array is truthy in JS), while the numeric score fields go through
the JS or-fallback with default 70; in the failure branch the summary is
the first 500 characters of the raw response text. -/
def parseAIResponse (parse : String → Option ParsedReview) (response : String)
    (config : AIConfigModel) : AIReviewResult :=
  match parse response with
  | some parsed =>
      { summary := jsOrStr parsed.summary "Review completed"
        title := parsed.title
        guide := parsed.guide
        suggestions :=
          (List.enum (match parsed.suggestions with
            | none => []
            | some l => l)).map (fun p => normalizeSuggestion p.1 p.2)
        overallScore := jsOrInt parsed.overallScore 70
        categories :=
          { codeQuality := jsOrInt (parsed.categories.bind (fun c => c.codeQuality)) 70
            security := jsOrInt (parsed.categories.bind (fun c => c.security)) 70
            performance := jsOrInt (parsed.categories.bind (fun c => c.performance)) 70
            maintainability := jsOrInt (parsed.categories.bind (fun c => c.maintainability)) 70
            testability := jsOrInt (parsed.categories.bind (fun c => c.testability)) 70 }
        model := config.model }
  | none =>
      { summary := response.take 500
        title := none
        guide := none
        suggestions := []
        overallScore := 70
        categories :=
          { codeQuality := 70
            security := 70
            performance := 70
            maintainability := 70
            testability := 70 }
        model := config.model }

/-- A concrete AI configuration used to evaluate the parser. -/
def sampleConfig : AIConfigModel :=
  { provider := "openai", model := "gpt-4o" }

/-- A concrete parsed review that carries an overall score of 0 and omits
the categories object. -/
def sampleParsedZero : ParsedReview :=
  { summary := some "all checks failed"
    title := none
    guide := none
    suggestions := none
    overallScore := some 0
    categories := none }

end AIParse

namespace Upsert

/-- An issue comment as seen through the predicates that postPRComment
applies to it: its id, its author login, whether its body contains the
codegate marker string, whether its body matches the AI-review header
fallback (the review-header or generated-by text), and the body text. -/
structure GHComment where
  id : Nat
  author : String
  hasMarker : Bool
  hasAIHeader : Bool
  body : String
deriving DecidableEq, Repr

/-- The comment list of one pull request together with the id the hosting
service will assign to the next created comment. -/
structure GHState where
  comments : List GHComment
  nextId : Nat
deriving DecidableEq, Repr

/-- The pr_comment_ids row for this (owner, repo, prNumber):
the stored comment id, if any. -/
structure CommentDB where
  stored : Option Nat
deriving DecidableEq, Repr

/-- The search predicate of useGitHub.ts lines 293-300: a comment is ours
when its body holds the marker and it is authored by the acting login, or
when it is authored by the acting login and its body looks like our AI
review header.  The model assumes the login lookup succeeds, as it does on
the success path. -/
def isOurComment (login : String) (c : GHComment) : Bool :=
  (c.hasMarker && (c.author == login)) || ((c.author == login) && c.hasAIHeader)

/-- Whether a comment with the given id exists (the PATCH fast path
succeeds exactly when it does; a missing id yields 404 and the source
falls through to the search). -/
def hasCommentId (s : GHState) (i : Nat) : Bool :=
  s.comments.any (fun c => c.id == i)

/-- The effect of a successful PATCH of comment i with the marker-tagged
body: that comment keeps its id and author, its body becomes the new
marker-tagged text (so the marker predicate holds of it). -/
def patchComment (s : GHState) (i : Nat) (body : String) : GHState :=
  { s with
    comments := s.comments.map (fun c =>
      if c.id = i then { c with body := body, hasMarker := true } else c) }

/-- postPRComment from src/hooks/useGitHub.ts lines 240-349, success-path
semantics: try the stored comment id first (a PATCH that succeeds when the
comment exists); otherwise search the comments for ours and PATCH the
match, storing its id; otherwise POST a new marker-tagged comment and
store its id.  The secondary auth-header retry is invisible here because
the model token is authorized, and toasts are display-only. -/
def postPRComment (login : String) (body : String) (s : GHState) (db : CommentDB) :
    GHState × CommentDB :=
  let fallback : GHState × CommentDB :=
    match s.comments.find? (fun c => isOurComment login c) with
    | some c => (patchComment s c.id body, { stored := some c.id })
    | none =>
        ({ comments := s.comments ++
             [{ id := s.nextId, author := login, hasMarker := true,
                hasAIHeader := false, body := body }]
           nextId := s.nextId + 1 },
         { stored := some s.nextId })
  match db.stored with
  | some i => if hasCommentId s i then (patchComment s i body, db) else fallback
  | none => fallback

/-- Number of marker-tagged comments on the PR. -/
def markerCount (s : GHState) : Nat :=
  s.comments.countP (fun c => c.hasMarker)

/-- A sequence of upsert calls with the given bodies, oldest first. -/
def postAll (login : String) (bodies : List String) (p : GHState × CommentDB) :
    GHState × CommentDB :=
  bodies.foldl (fun q b => postPRComment login b q.1 q.2) p

/-- A PR state on which the upsert has never acted: no comment is ours by
the search predicate, no id is stored, and all present ids are below the
next fresh id. -/
def Clean (login : String) (s : GHState) (db : CommentDB) : Prop :=
  (∀ c ∈ s.comments, isOurComment login c = false ∧ c.hasMarker = false)
    ∧ db.stored = none
    ∧ (∀ c ∈ s.comments, c.id < s.nextId)

/-- The state the upsert maintains after its first call: exactly one
marker-tagged comment, the stored id denotes an existing comment, every
comment carrying the stored id is marker-tagged, and ids stay below the
fresh id. -/
def Settled (s : GHState) (db : CommentDB) : Prop :=
  markerCount s = 1
    ∧ (∃ i, db.stored = some i
        ∧ hasCommentId s i = true
        ∧ (∀ c ∈ s.comments, c.id = i → c.hasMarker = true))
    ∧ (∀ c ∈ s.comments, c.id < s.nextId)

end Upsert

namespace Pipeline

/-- The observable effects of the run-analysis flow of
src/pages/Dashboard.tsx (handleRunAnalysis, lines 77-105), in order. -/
inductive RunEffect
| fetchFiles
| analyzeProgress
| mockSonar
| genAIReview
| toastGateFailed
| toastGatePassed
| historyAppend
deriving DecidableEq, Repr

/-- handleRunAnalysis from src/pages/Dashboard.tsx lines 77-105 as its
effect trace: with no selected PR it returns immediately; otherwise it
fetches the PR files (failures inside fetch or analyze are caught and
yield an empty list or a toast), runs the simulated analysis, generates
the quality report, requests the AI review (which resolves to null on
failure), and toasts the gate outcome.  The aiReviewFailed flag selects
the AI-failure branch; both branches emit the same effects because the
failure is absorbed into a null review value. -/
def handleRunAnalysis (prSelected : Bool) (thresholdExceeded : Bool)
    (aiReviewFailed : Bool) : List RunEffect :=
  if !prSelected then []
  else
    [RunEffect.fetchFiles, RunEffect.analyzeProgress, RunEffect.mockSonar]
      ++ (if aiReviewFailed then [RunEffect.genAIReview] else [RunEffect.genAIReview])
      ++ (if thresholdExceeded then [RunEffect.toastGateFailed] else [RunEffect.toastGatePassed])

/-- Number of history-store appends in a trace. -/
def historyAppendCount (es : List RunEffect) : Nat :=
  es.countP (fun e => e == RunEffect.historyAppend)

end Pipeline

namespace Conflict

/-- Resolution strategy union type from src/hooks/useMergeConflict.ts. -/
inductive ResolutionStrategy
| ours
| theirs
| manual
| ai_assisted
deriving DecidableEq, Repr

/-- The fields of a ConflictFile that drive the resolution dialog. -/
structure ConflictFileModel where
  filename : String
  hasBusinessLogic : Bool
deriving DecidableEq, Repr

/-- The fields of a parsed AI conflict analysis that the dialog branches
on (the canAutoResolve flag of the JSON reply). -/
structure ConflictAnalysisModel where
  canAutoResolve : Bool
deriving DecidableEq, Repr

/-- The resolution actions the merge-conflict dialog offers for one file,
from the AI-assisted resolution tab: when the parsed analysis allows auto
resolution and the file carries no business logic, the single apply-AI
button with the ai_assisted strategy is rendered; otherwise the manual
block with the keep-ours, keep-theirs and apply-manual buttons is
rendered.  This is the branch at the canAutoResolve check of the dialog
component (handleResolve callers). -/
def offeredStrategies (file : ConflictFileModel) (parsed : ConflictAnalysisModel) :
    List ResolutionStrategy :=
  if parsed.canAutoResolve && !file.hasBusinessLogic then
    [ResolutionStrategy.ai_assisted]
  else
    [ResolutionStrategy.ours, ResolutionStrategy.theirs, ResolutionStrategy.manual]

/-- A persisted merge_conflict_resolutions row as resolveConflict writes
it (src/hooks/useMergeConflict.ts lines 204-236), paired with the source
file it was written for so the policy can be stated about the file flag. -/
structure PersistedResolution where
  file : ConflictFileModel
  strategy : ResolutionStrategy
deriving DecidableEq, Repr

/-- The resolution states reachable through the dialog: starting from no
persisted rows, each step picks a conflict file and a parsed analysis and
invokes handleResolve with one of the strategies the dialog offers for
them, which persists one row via resolveConflict. -/
inductive DialogReachable : List PersistedResolution → Prop
| init : DialogReachable []
| step (st : List PersistedResolution) (file : ConflictFileModel)
    (parsed : ConflictAnalysisModel) (strategy : ResolutionStrategy)
    (hoffer : strategy ∈ offeredStrategies file parsed)
    (hreach : DialogReachable st) :
    DialogReachable (st ++ [{ file := file, strategy := strategy }])

end Conflict

namespace Detect

/-- JS word character class (letters, digits, underscore). -/
def isWordChar (c : Char) : Bool :=
  c.isAlphanum || c == '_'

/-- A matcher consumes a piece of the text at the current position and
returns the rest, or fails; regex fragments below compile to these. -/
def Matcher := List Char → Option (List Char)

/-- Literal string fragment. -/
def litM (s : String) : Matcher := fun cs =>
  if s.toList.isPrefixOf cs then some (cs.drop s.length) else none

/-- One or more whitespace characters, consumed greedily. -/
def ws1M : Matcher := fun cs =>
  match cs with
  | [] => none
  | c :: rest => if c.isWhitespace then some (rest.dropWhile (fun x => x.isWhitespace)) else none

/-- Zero or more whitespace characters, consumed greedily. -/
def wsManyM : Matcher := fun cs => some (cs.dropWhile (fun x => x.isWhitespace))

/-- One or more word characters, consumed greedily. -/
def word1M : Matcher := fun cs =>
  match cs with
  | [] => none
  | c :: rest => if isWordChar c then some (rest.dropWhile isWordChar) else none

/-- Zero or more characters other than a closing parenthesis, consumed
greedily. -/
def notParenManyM : Matcher := fun cs => some (cs.dropWhile (fun x => !(x == ')')))

/-- Sequencing of matchers. -/
def seqM (ms : List Matcher) : Matcher := fun cs =>
  ms.foldl (fun acc m => acc.bind m) (some cs)

/-- Alternation of two matchers (first match wins, as the regex
alternatives do for these patterns). -/
def altM (a b : Matcher) : Matcher := fun cs =>
  match a cs with
  | some r => some r
  | none => b cs

/-- The business-logic regex patterns of detectBusinessLogic
(src/hooks/useMergeConflict.ts lines 258-266), in source order:
a named function declaration, a class declaration, a const arrow function,
an async function, an exported function, an interface declaration and a
type alias declaration.  The character classes of consecutive fragments
are disjoint, so the greedy matchers above are equivalent to the
backtracking regex engine on these patterns. -/
def businessPatterns : List Matcher :=
  [ seqM [litM "function", ws1M, word1M]
  , seqM [litM "class", ws1M, word1M]
  , seqM [litM "const", ws1M, word1M, wsManyM, litM "=", wsManyM, litM "(",
      notParenManyM, litM ")", wsManyM, litM "=>"]
  , seqM [litM "async", ws1M, litM "function"]
  , seqM [litM "export", ws1M, altM (seqM [litM "default", ws1M, litM "function"]) (litM "function")]
  , seqM [litM "interface", ws1M, word1M]
  , seqM [litM "type", ws1M, word1M, wsManyM, litM "="] ]

/-- Unanchored regex test: the matcher succeeds somewhere in the text. -/
def searchM (m : Matcher) : List Char → Bool
  | [] => (m []).isSome
  | c :: cs => (m (c :: cs)).isSome || searchM m cs

/-- The source-code extension list of detectBusinessLogic
(src/hooks/useMergeConflict.ts line 252). -/
def businessLogicExtensions : List String :=
  [".ts", ".tsx", ".js", ".jsx", ".java", ".py", ".cs", ".go"]

/-- detectBusinessLogic from src/hooks/useMergeConflict.ts lines 250-269:
false unless the filename ends with a recognized source-code extension,
otherwise true exactly when some business pattern matches the patch.  The
JS String.endsWith call is modelled by the suffix test on the character
lists. -/
def detectBusinessLogic (filename patch : String) : Bool :=
  let hasBusinessExtension := businessLogicExtensions.any
    (fun e => e.toList.isSuffixOf filename.toList)
  if !hasBusinessExtension then false
  else businessPatterns.any (fun m => searchM m patch.toList)

/-- Reference predicate written from the wording of the spec: the filename
ends with a recognized source-code extension. -/
def specRecognizedExtension (filename : String) : Bool :=
  businessLogicExtensions.any (fun e => e.toList.isSuffixOf filename.toList)

/-- Reference predicate written from the wording of the spec: the diff
text matches a function, class, arrow-function, interface or
type-declaration pattern. -/
def specMatchesDeclarationPattern (patch : String) : Bool :=
  businessPatterns.any (fun m => searchM m patch.toList)

end Detect

/-- C1: the auto-merge decision function shouldAutoMerge equals the
reference definition: disabled configs always refuse; in at-most mode it
returns whether both the AI score and the issue count are at or below
their thresholds; in at-least mode whether both are at or above them. -/
theorem shouldAutoMerge_matches_reference :
    ∀ (aiScore sonarIssues : Int) (cfg : AutoMerge.AutoMergeConfig),
      AutoMerge.shouldAutoMerge aiScore sonarIssues cfg
        = AutoMerge.decideReference aiScore sonarIssues cfg := by
  intro aiScore sonarIssues cfg
  cases cfg with
  | mk enabled mode aiThreshold sonarThreshold =>
      cases enabled <;> cases mode <;>
        simp [AutoMerge.shouldAutoMerge, AutoMerge.decideReference, Bool.decide_and]

/-- C2: the run-analysis flow of the dashboard appends no decision record
to the history store on any branch (PR selected, gate passed or failed,
AI review succeeded or failed), so the count of appends per completed run
is 0, not the 1 the invariant demands. -/
theorem handleRunAnalysis_appends_no_history :
    ∀ (thresholdExceeded aiReviewFailed : Bool),
      Pipeline.historyAppendCount
        (Pipeline.handleRunAnalysis true thresholdExceeded aiReviewFailed) = 0 := by
  intro thresholdExceeded aiReviewFailed
  cases thresholdExceeded <;> cases aiReviewFailed <;> rfl

/-- C3 counterexample: two runs of the header generator with identical
PR inputs (additions 120, deletions 30, changed files 4, PR number 42)
but different pseudo-random draws produce different header metric values,
so the headers are not a deterministic function of the PR inputs. -/
theorem mockSonarHeaders_two_runs_differ :
    Quality.mockSonarHeaders
        { additions := 120, deletions := 30, changedFiles := 4, number := 42 }
        (fun _ => 0)
      ≠ Quality.mockSonarHeaders
        { additions := 120, deletions := 30, changedFiles := 4, number := 42 }
        (fun _ => (1 : Rat) / 2) := by
  intro h
  rw [Quality.mockSonarHeaders, Quality.mockSonarHeaders,
    Quality.SonarHeaderMetrics.mk.injEq] at h
  obtain ⟨hb, -⟩ := h
  norm_num at hb

/-- C3 amended: the header metric values are identical across calls
exactly when the consumed pseudo-random draws are identical.  They do not
depend on additions, deletions, changed-file count or PR number at all:
for a fixed draw sequence, any two PR inputs yield the same headers. -/
theorem mockSonarHeaders_deterministic_in_draws :
    ∀ (pr pr2 : Quality.PRSizeInput) (rand : Nat → Rat),
      Quality.mockSonarHeaders pr rand = Quality.mockSonarHeaders pr2 rand := by
  intro pr pr2 rand
  rfl

/-- C4 counterexample: with the default thresholds and draws that make
the security-hotspot count 3 (above its threshold 0) while every other
metric passes, the aggregate gate status is OK although the hotspot check
exceeds, so the status is not ERROR exactly when some check among the six
exceeds. -/
theorem qualityGate_ignores_hotspots :
    ¬ ((Quality.qualityGateStatus Quality.DEFAULT_THRESHOLDS Quality.cexHeaders
          = Quality.GateStatus.ERROR)
        ↔ (Quality.cexHeaders.bugs > Quality.DEFAULT_THRESHOLDS.bugs
          ∨ Quality.cexHeaders.vulnerabilities > Quality.DEFAULT_THRESHOLDS.vulnerabilities
          ∨ Quality.cexHeaders.codeSmells > Quality.DEFAULT_THRESHOLDS.codeSmells
          ∨ Quality.cexHeaders.coverage < Quality.DEFAULT_THRESHOLDS.coverageMin
          ∨ Quality.cexHeaders.duplicatedLines > Quality.DEFAULT_THRESHOLDS.duplicatedLinesMax
          ∨ Quality.cexHeaders.securityHotspots > Quality.DEFAULT_THRESHOLDS.securityHotspots)) := by
  have hh : Quality.cexHeaders =
      { bugs := 0, vulnerabilities := 0, codeSmells := 0, coverage := 90,
        duplicatedLines := 0, securityHotspots := 3 } := by
    rw [Quality.cexHeaders, Quality.mockSonarHeaders, Quality.SonarHeaderMetrics.mk.injEq]
    refine ⟨?_, ?_, ?_, ?_, ?_, ?_⟩ <;> norm_num [Quality.cexDraws]
  rw [hh]
  simp only [Quality.qualityGateStatus, Quality.mockViolations, Quality.DEFAULT_THRESHOLDS]
  norm_num
  decide

/-- C4 amended: the aggregate gate status is ERROR exactly when one of
the five checks that feed the violations list exceeds its threshold (bug,
vulnerability or code-smell count above its threshold, coverage below its
minimum, or duplication above its maximum); the security-hotspot check is
evaluated and displayed but does not affect the gate status. -/
theorem qualityGate_error_iff_violation_checks :
    ∀ (t : Quality.ThresholdConfig) (h : Quality.SonarHeaderMetrics),
      Quality.qualityGateStatus t h = Quality.GateStatus.ERROR
        ↔ (h.bugs > t.bugs
            ∨ h.vulnerabilities > t.vulnerabilities
            ∨ h.codeSmells > t.codeSmells
            ∨ h.coverage < t.coverageMin
            ∨ h.duplicatedLines > t.duplicatedLinesMax) := by
  intro t h
  unfold Quality.qualityGateStatus Quality.mockViolations
  by_cases h1 : h.bugs > t.bugs <;>
    by_cases h2 : h.vulnerabilities > t.vulnerabilities <;>
      by_cases h3 : h.codeSmells > t.codeSmells <;>
        by_cases h4 : h.coverage < t.coverageMin <;>
          by_cases h5 : h.duplicatedLines > t.duplicatedLinesMax <;>
            simp [h1, h2, h3, h4, h5]

theorem take_append_take {α : Type} (n : Nat) (l m : List α) :
    List.take n (l ++ List.take n m) = List.take n (l ++ m) := by
  rw [List.take_append_eq_append_take, List.take_append_eq_append_take,
    List.take_take, Nat.min_eq_left (Nat.sub_le _ _)]

theorem foldl_save_cap {α : Type} (es : List α) :
    ∀ (acc : List α), acc.length ≤ 20 →
      es.foldl (fun a e => List.take 20 (e :: a)) acc
        = List.take 20 (es.reverse ++ acc) := by
  induction es with
  | nil =>
      intro acc hacc
      simp [List.take_of_length_le hacc]
  | cons e es ih =>
      intro acc hacc
      have hlen : (List.take 20 (e :: acc)).length ≤ 20 := by
        simp [List.length_take]
      calc (e :: es).foldl (fun a x => List.take 20 (x :: a)) acc
          = es.foldl (fun a x => List.take 20 (x :: a)) (List.take 20 (e :: acc)) := rfl
        _ = List.take 20 (es.reverse ++ List.take 20 (e :: acc)) := ih _ hlen
        _ = List.take 20 (es.reverse ++ (e :: acc)) := take_append_take 20 _ _
        _ = List.take 20 ((e :: es).reverse ++ acc) := by
              simp [List.reverse_cons, List.append_assoc]

theorem saveAll_apply (prNumber : Nat) (es : List History.AutoMergeHistoryEntry) :
    ∀ (m : History.HistoryMap),
      History.saveAll m prNumber es prNumber
        = es.foldl (fun a e => List.take 20 (e :: a)) (m prNumber) := by
  induction es with
  | nil => intro m; rfl
  | cons e es ih =>
      intro m
      calc History.saveAll m prNumber (e :: es) prNumber
          = History.saveAll (History.saveHistory m prNumber e) prNumber es prNumber := rfl
        _ = es.foldl (fun a x => List.take 20 (x :: a))
              (History.saveHistory m prNumber e prNumber) := ih _
        _ = es.foldl (fun a x => List.take 20 (x :: a)) (List.take 20 (e :: m prNumber)) := by
              simp [History.saveHistory]

/-- C6: inserting a sequence of more than 20 entries for one PR into the
empty history store and reading the PR back yields exactly the 20 most
recently inserted entries, newest first (the reversed insertion order
truncated to 20); the oldest entries are evicted. -/
theorem saveHistory_cap20_newest_first :
    ∀ (prNumber : Nat) (es : List History.AutoMergeHistoryEntry),
      20 < es.length →
      History.getHistory (History.saveAll History.emptyHistory prNumber es) prNumber
          = List.take 20 es.reverse
        ∧ (History.getHistory (History.saveAll History.emptyHistory prNumber es) prNumber).length
          = 20 := by
  intro prNumber es hlen
  have hmain : History.getHistory (History.saveAll History.emptyHistory prNumber es) prNumber
      = List.take 20 es.reverse := by
    unfold History.getHistory
    rw [saveAll_apply, foldl_save_cap]
    · simp [History.emptyHistory]
    · simp [History.emptyHistory]
  refine ⟨hmain, ?_⟩
  rw [hmain]
  simp [List.length_take]
  omega

theorem saveHistory_cap20_newest_first_witness :
    20 < History.sampleEntries.length
      ∧ (History.getHistory
            (History.saveAll History.emptyHistory 42 History.sampleEntries) 42
          = List.take 20 History.sampleEntries.reverse
        ∧ (History.getHistory
              (History.saveAll History.emptyHistory 42 History.sampleEntries) 42).length
          = 20) :=
  ⟨by simp [History.sampleEntries], saveHistory_cap20_newest_first 42 History.sampleEntries
    (by simp [History.sampleEntries])⟩

/-- C7: whenever the AI provider response text fails to parse as the
expected structured JSON, parseAIResponse returns (it does not raise) a
result whose overall score is 70, whose five category scores are all 70,
and whose summary is the first 500 characters of the raw response text. -/
theorem parseAIResponse_failure_defaults :
    ∀ (parse : String → Option AIParse.ParsedReview) (response : String)
      (config : AIParse.AIConfigModel),
      parse response = none →
      AIParse.parseAIResponse parse response config =
        { summary := response.take 500
          title := none
          guide := none
          suggestions := []
          overallScore := 70
          categories :=
            { codeQuality := 70, security := 70, performance := 70,
              maintainability := 70, testability := 70 }
          model := config.model } := by
  intro parse response config hfail
  simp [AIParse.parseAIResponse, hfail]

theorem parseAIResponse_failure_defaults_witness :
    ((fun _ : String => (none : Option AIParse.ParsedReview)) "not json at all" = none)
      ∧ AIParse.parseAIResponse (fun _ => none) "not json at all" AIParse.sampleConfig =
        { summary := ("not json at all" : String).take 500
          title := none
          guide := none
          suggestions := []
          overallScore := 70
          categories :=
            { codeQuality := 70, security := 70, performance := 70,
              maintainability := 70, testability := 70 }
          model := AIParse.sampleConfig.model } :=
  ⟨rfl, parseAIResponse_failure_defaults (fun _ => none) "not json at all"
    AIParse.sampleConfig rfl⟩

/-- C10: when the response parses successfully but carries an overall
score of 0, a category score of 0, or omits them, the JS falsy-or default
replaces the value with 70, so a genuinely parsed score of 0 produces the
same 70 as the parse-failure default in the returned result. -/
theorem parseAIResponse_zero_scores_become_default :
    ∀ (parse : String → Option AIParse.ParsedReview) (response : String)
      (config : AIParse.AIConfigModel) (parsed : AIParse.ParsedReview),
      parse response = some parsed →
      ((parsed.overallScore = some 0 ∨ parsed.overallScore = none) →
          (AIParse.parseAIResponse parse response config).overallScore = 70)
        ∧ ((parsed.categories.bind (fun c => c.codeQuality) = some 0
              ∨ parsed.categories.bind (fun c => c.codeQuality) = none) →
            (AIParse.parseAIResponse parse response config).categories.codeQuality = 70)
        ∧ ((parsed.categories.bind (fun c => c.security) = some 0
              ∨ parsed.categories.bind (fun c => c.security) = none) →
            (AIParse.parseAIResponse parse response config).categories.security = 70)
        ∧ ((parsed.categories.bind (fun c => c.performance) = some 0
              ∨ parsed.categories.bind (fun c => c.performance) = none) →
            (AIParse.parseAIResponse parse response config).categories.performance = 70)
        ∧ ((parsed.categories.bind (fun c => c.maintainability) = some 0
              ∨ parsed.categories.bind (fun c => c.maintainability) = none) →
            (AIParse.parseAIResponse parse response config).categories.maintainability = 70)
        ∧ ((parsed.categories.bind (fun c => c.testability) = some 0
              ∨ parsed.categories.bind (fun c => c.testability) = none) →
            (AIParse.parseAIResponse parse response config).categories.testability = 70) := by
  intro parse response config parsed hok
  refine ⟨?_, ?_, ?_, ?_, ?_, ?_⟩ <;>
    (rintro (h0 | h0) <;> simp [AIParse.parseAIResponse, hok, AIParse.jsOrInt, h0])

theorem parseAIResponse_zero_scores_become_default_witness :
    ((fun _ : String => some AIParse.sampleParsedZero) "reply" = some AIParse.sampleParsedZero)
      ∧ (AIParse.sampleParsedZero.overallScore = some 0
          ∨ AIParse.sampleParsedZero.overallScore = none)
      ∧ (AIParse.parseAIResponse (fun _ => some AIParse.sampleParsedZero) "reply"
          AIParse.sampleConfig).overallScore = 70
      ∧ (AIParse.parseAIResponse (fun _ => some AIParse.sampleParsedZero) "reply"
          AIParse.sampleConfig).categories.codeQuality = 70 :=
  ⟨rfl, Or.inl rfl,
    (parseAIResponse_zero_scores_become_default (fun _ => some AIParse.sampleParsedZero)
      "reply" AIParse.sampleConfig AIParse.sampleParsedZero rfl).1 (Or.inl rfl),
    (parseAIResponse_zero_scores_become_default (fun _ => some AIParse.sampleParsedZero)
      "reply" AIParse.sampleConfig AIParse.sampleParsedZero rfl).2.1 (Or.inr rfl)⟩

/-- C8: in every resolution state reachable through the merge-conflict
dialog, no persisted resolution for a file flagged hasBusinessLogic is the
ai_assisted strategy; such files can only be resolved as ours, theirs or
manual, because the dialog renders the apply-AI button only when the file
carries no business logic. -/
theorem business_logic_file_never_ai_assisted :
    ∀ (st : List Conflict.PersistedResolution), Conflict.DialogReachable st →
      ∀ r ∈ st, r.file.hasBusinessLogic = true →
        r.strategy ≠ Conflict.ResolutionStrategy.ai_assisted
          ∧ (r.strategy = Conflict.ResolutionStrategy.ours
            ∨ r.strategy = Conflict.ResolutionStrategy.theirs
            ∨ r.strategy = Conflict.ResolutionStrategy.manual) := by
  intro st hreach
  induction hreach with
  | init =>
      intro r hr
      simp at hr
  | step st file parsed strategy hoffer hreach ih =>
      intro r hr hbl
      rcases List.mem_append.mp hr with hin | hin
      · exact ih r hin hbl
      · have hr2 : r = { file := file, strategy := strategy } := by
          simpa using hin
        subst hr2
        simp only at hbl
        simp [Conflict.offeredStrategies, hbl] at hoffer
        rcases hoffer with h | h | h <;> subst h <;> simp

theorem business_logic_file_never_ai_assisted_witness :
    ({ file := { filename := "Billing.java", hasBusinessLogic := true },
        strategy := Conflict.ResolutionStrategy.manual }
      : Conflict.PersistedResolution).strategy ≠ Conflict.ResolutionStrategy.ai_assisted :=
  (business_logic_file_never_ai_assisted
    ([] ++ [{ file := { filename := "Billing.java", hasBusinessLogic := true },
              strategy := Conflict.ResolutionStrategy.manual }])
    (Conflict.DialogReachable.step [] { filename := "Billing.java", hasBusinessLogic := true }
      { canAutoResolve := true } Conflict.ResolutionStrategy.manual (by decide)
      Conflict.DialogReachable.init)
    _ (by simp) rfl).1

/-- C9: the business-logic classifier returns true exactly when the
filename ends with a recognized source-code extension and the diff text
matches one of the declaration patterns; in particular a changed file
named Calculator.java whose patch contains a class Calculator declaration
is classified as business logic, and a file named README.md is never
classified as business logic, whatever its patch. -/
theorem detectBusinessLogic_classification :
    (∀ (filename patch : String),
        Detect.detectBusinessLogic filename patch
          = (Detect.specRecognizedExtension filename
              && Detect.specMatchesDeclarationPattern patch))
      ∧ Detect.detectBusinessLogic "Calculator.java"
          "@@ -1,4 +1,9 @@ public class Calculator extends Base" = true
      ∧ (∀ (patch : String), Detect.detectBusinessLogic "README.md" patch = false) := by
  refine ⟨?_, ?_, ?_⟩
  · intro filename patch
    unfold Detect.detectBusinessLogic Detect.specRecognizedExtension
      Detect.specMatchesDeclarationPattern
    cases hext : Detect.businessLogicExtensions.any
        (fun e => e.toList.isSuffixOf filename.toList) <;> simp [hext]
  · decide
  · intro patch
    have hext : Detect.businessLogicExtensions.any
        (fun e => e.toList.isSuffixOf ("README.md").toList) = false := by decide
    unfold Detect.detectBusinessLogic
    rw [hext]
    rfl

theorem countP_map_congr {α : Type} (p : α → Bool) (f : α → α) :
    ∀ (l : List α), (∀ c ∈ l, p (f c) = p c) →
      List.countP p (l.map f) = List.countP p l := by
  intro l h
  induction l with
  | nil => simp
  | cons a t ih =>
      simp only [List.map_cons, List.countP_cons,
        ih (fun c hc => h c (List.mem_cons_of_mem a hc)), h a (List.mem_cons_self a t)]

theorem any_map_congr {α : Type} (p : α → Bool) (f : α → α) :
    ∀ (l : List α), (∀ c ∈ l, p (f c) = p c) →
      (l.map f).any p = l.any p := by
  intro l h
  induction l with
  | nil => simp
  | cons a t ih =>
      simp only [List.map_cons, List.any_cons,
        ih (fun c hc => h c (List.mem_cons_of_mem a hc)), h a (List.mem_cons_self a t)]

theorem patch_elem_id (c : Upsert.GHComment) (i : Nat) (b : String) :
    (if c.id = i then { c with body := b, hasMarker := true } else c).id = c.id := by
  split <;> rfl

theorem post_settled_eq (login body : String) (s : Upsert.GHState) (db : Upsert.CommentDB)
    (i : Nat) (hst : db.stored = some i) (hhas : Upsert.hasCommentId s i = true) :
    Upsert.postPRComment login body s db = (Upsert.patchComment s i body, db) := by
  unfold Upsert.postPRComment
  rw [hst]
  simp [hhas]

theorem post_clean_eq (login body : String) (s : Upsert.GHState) (db : Upsert.CommentDB)
    (hst : db.stored = none)
    (hfind : s.comments.find? (fun c => Upsert.isOurComment login c) = none) :
    Upsert.postPRComment login body s db =
      ({ comments := s.comments ++
           [{ id := s.nextId, author := login, hasMarker := true,
              hasAIHeader := false, body := body }]
         nextId := s.nextId + 1 },
       { stored := some s.nextId }) := by
  unfold Upsert.postPRComment
  rw [hst, hfind]

theorem markerCount_patch (s : Upsert.GHState) (i : Nat) (b : String)
    (h : ∀ c ∈ s.comments, c.id = i → c.hasMarker = true) :
    Upsert.markerCount (Upsert.patchComment s i b) = Upsert.markerCount s := by
  unfold Upsert.markerCount Upsert.patchComment
  apply countP_map_congr
  intro c hc
  by_cases hci : c.id = i
  · simp [hci, h c hc hci]
  · simp [hci]

theorem hasCommentId_patch (s : Upsert.GHState) (i j : Nat) (b : String) :
    Upsert.hasCommentId (Upsert.patchComment s i b) j = Upsert.hasCommentId s j := by
  unfold Upsert.hasCommentId Upsert.patchComment
  apply any_map_congr
  intro c _
  rw [patch_elem_id]

theorem settled_step (login body : String) (s : Upsert.GHState) (db : Upsert.CommentDB)
    (h : Upsert.Settled s db) :
    Upsert.Settled (Upsert.postPRComment login body s db).1
        (Upsert.postPRComment login body s db).2
      ∧ (Upsert.postPRComment login body s db).1.comments.length = s.comments.length := by
  obtain ⟨hcount, ⟨i, hst, hhas, hmark⟩, hbound⟩ := h
  rw [post_settled_eq login body s db i hst hhas]
  refine ⟨⟨?_, ⟨i, hst, ?_, ?_⟩, ?_⟩, ?_⟩
  · rw [markerCount_patch s i body hmark]
    exact hcount
  · rw [hasCommentId_patch]
    exact hhas
  · intro c hc hci
    obtain ⟨c0, hc0, rfl⟩ := List.mem_map.mp hc
    by_cases hc0i : c0.id = i
    · simp [hc0i]
    · rw [patch_elem_id] at hci
      exact absurd hci hc0i
  · intro c hc
    obtain ⟨c0, hc0, rfl⟩ := List.mem_map.mp hc
    have hid := patch_elem_id c0 i body
    show (if c0.id = i then _ else c0).id < _
    rw [hid]
    exact hbound c0 hc0
  · simp [Upsert.patchComment]

theorem clean_first (login body : String) (s : Upsert.GHState) (db : Upsert.CommentDB)
    (h : Upsert.Clean login s db) :
    Upsert.Settled (Upsert.postPRComment login body s db).1
        (Upsert.postPRComment login body s db).2
      ∧ (Upsert.postPRComment login body s db).1.comments.length
        = s.comments.length + 1 := by
  obtain ⟨hours, hst, hbound⟩ := h
  have hfind : s.comments.find? (fun c => Upsert.isOurComment login c) = none := by
    rw [List.find?_eq_none]
    intro c hc
    simp [(hours c hc).1]
  rw [post_clean_eq login body s db hst hfind]
  refine ⟨⟨?_, ⟨s.nextId, rfl, ?_, ?_⟩, ?_⟩, ?_⟩
  · have hzero : List.countP (fun c => c.hasMarker) s.comments = 0 :=
      List.countP_eq_zero.mpr (fun c hc => by simp [(hours c hc).2])
    simp [Upsert.markerCount, List.countP_append, List.countP_cons, hzero]
  · simp [Upsert.hasCommentId, List.any_append]
  · intro c hc hci
    rcases List.mem_append.mp hc with hin | hin
    · have := hbound c hin
      omega
    · have hc2 := List.mem_singleton.mp hin
      rw [hc2]
  · intro c hc
    rcases List.mem_append.mp hc with hin | hin
    · exact Nat.lt_succ_of_lt (hbound c hin)
    · have hc2 := List.mem_singleton.mp hin
      rw [hc2]
      exact Nat.lt_succ_self _
  · simp

theorem settled_postAll (login : String) (bodies : List String) :
    ∀ (p : Upsert.GHState × Upsert.CommentDB), Upsert.Settled p.1 p.2 →
      Upsert.Settled (Upsert.postAll login bodies p).1 (Upsert.postAll login bodies p).2
        ∧ (Upsert.postAll login bodies p).1.comments.length = p.1.comments.length := by
  induction bodies with
  | nil => intro p h; exact ⟨h, rfl⟩
  | cons b bs ih =>
      intro p h
      have hstep := settled_step login b p.1 p.2 h
      have hrest := ih (Upsert.postPRComment login b p.1 p.2) hstep.1
      refine ⟨hrest.1, ?_⟩
      calc (Upsert.postAll login (b :: bs) p).1.comments.length
          = (Upsert.postAll login bs (Upsert.postPRComment login b p.1 p.2)).1.comments.length := rfl
        _ = (Upsert.postPRComment login b p.1 p.2).1.comments.length := hrest.2
        _ = p.1.comments.length := hstep.2

/-- C5: the comment upsert is idempotent: starting from a PR whose
comments include no marker-tagged comment and none authored by the acting
identity that looks like an AI review, with no stored comment id, any
non-empty sequence of sequential postPRComment calls leaves exactly one
marker-tagged comment on the PR, and grows the comment list by exactly
one comment in total: repeated calls update the existing marker comment
rather than creating a new one. -/
theorem upsertComment_single_marker :
    ∀ (login : String) (s : Upsert.GHState) (db : Upsert.CommentDB) (bodies : List String),
      Upsert.Clean login s db → bodies ≠ [] →
      Upsert.markerCount (Upsert.postAll login bodies (s, db)).1 = 1
        ∧ (Upsert.postAll login bodies (s, db)).1.comments.length
          = s.comments.length + 1 := by
  intro login s db bodies hclean hne
  cases bodies with
  | nil => exact absurd rfl hne
  | cons b bs =>
      have h1 := clean_first login b s db hclean
      have h2 := settled_postAll login bs (Upsert.postPRComment login b s db) h1.1
      refine ⟨h2.1.1, ?_⟩
      calc (Upsert.postAll login (b :: bs) (s, db)).1.comments.length
          = (Upsert.postAll login bs (Upsert.postPRComment login b s db)).1.comments.length := rfl
        _ = (Upsert.postPRComment login b s db).1.comments.length := h2.2
        _ = s.comments.length + 1 := h1.2

theorem upsertComment_single_marker_witness :
    Upsert.Clean "codegate-bot" { comments := [], nextId := 0 } { stored := none }
      ∧ (["first review text", "second review text"] : List String) ≠ []
      ∧ Upsert.markerCount
          (Upsert.postAll "codegate-bot" ["first review text", "second review text"]
            ({ comments := [], nextId := 0 }, { stored := none })).1 = 1
      ∧ (Upsert.postAll "codegate-bot" ["first review text", "second review text"]
          ({ comments := [], nextId := 0 }, { stored := none })).1.comments.length
        = (({ comments := [], nextId := 0 } : Upsert.GHState)).comments.length + 1 :=
  ⟨⟨by simp, rfl, by simp⟩, by simp,
    (upsertComment_single_marker "codegate-bot" { comments := [], nextId := 0 }
      { stored := none } ["first review text", "second review text"]
      ⟨by simp, rfl, by simp⟩ (by simp)).1,
    (upsertComment_single_marker "codegate-bot" { comments := [], nextId := 0 }
      { stored := none } ["first review text", "second review text"]
      ⟨by simp, rfl, by simp⟩ (by simp)).2⟩
